import Mathlib

/-!
Verification development for `queuectl`, a CLI job-queue system backed by a
SQLite store (source: `src/queuectl.py`).  The store's `jobs` table is
embedded as a list of `Job` records; every operation of the core engine
(enqueue, atomic claim, result commit, DLQ retry) is translated into a pure
function on that list, with the transaction's wall-clock reading passed in
explicitly.  Timestamps are embedded as rational numbers of seconds (the
canonical `YYYY-MM-DDTHH:MM:SSZ` strings of the source are order-isomorphic
to the instants they denote); the string-formatting layer of the source
(`now_iso` and the ISO rendering used by the retry path) is embedded
separately, at the end, over a broken-down UTC datetime.
-/

namespace QueueCtl

/-- Job lifecycle states, exactly the five states of the source
(`pending`, `processing`, `completed`, `failed`, `dead`). -/
inductive JobState
  | pending
  | processing
  | completed
  | failed
  | dead
deriving DecidableEq

/-- A row of the `jobs` table (schema in `init_db`, `src/queuectl.py`
lines 48-63): nullable columns are `Option`, timestamp columns are rational
seconds. -/
structure Job where
  id : String
  command : String
  state : JobState
  attempts : Nat
  max_retries : Nat
  created_at : ℚ
  updated_at : ℚ
  due_at : ℚ
  last_error : Option String
  output : Option String
  priority : Int
  picked_by : Option String
deriving DecidableEq

/-- Eligibility condition of the claim query (`pick_next_job`, lines
220-227): `state IN ('pending', 'failed') AND due_at <= now`. -/
def eligible (now : ℚ) (j : Job) : Prop :=
  (j.state = .pending ∨ j.state = .failed) ∧ j.due_at ≤ now

instance (now : ℚ) (j : Job) : Decidable (eligible now j) := by
  unfold eligible; infer_instance

/-- Ordering key of the claim query: `ORDER BY priority DESC, due_at ASC,
created_at ASC` is the lexicographic order on `(-priority, due_at,
created_at)`. -/
def orderKey (j : Job) : Lex (Int × Lex (ℚ × ℚ)) :=
  toLex (-j.priority, toLex (j.due_at, j.created_at))

/-- The `SELECT ... ORDER BY ... LIMIT 1` of `pick_next_job`: a row of the
store minimizing the ordering key among the eligible rows (first of the list
on ties, matching the scan order of the store). -/
def selectNext (now : ℚ) (store : List Job) : Option Job :=
  (store.filter fun j => decide (eligible now j)).argmin orderKey

/-- The claiming `UPDATE` applied to a row: `state = 'processing',
picked_by = worker_id, updated_at = now` (lines 233-240). -/
def claim_row (worker_id : String) (now : ℚ) (r : Job) : Job :=
  { r with state := .processing, picked_by := some worker_id, updated_at := now }

/-- Embedding of `pick_next_job` (lines 212-246): one transaction that
selects the minimal eligible row and conditionally updates it
(`WHERE id = ? AND state IN ('pending','failed')`), returning the claimed
row.  In this sequential embedding the conditional update always matches the
row just selected, which is the code's behavior in any single transaction. -/
def pick_next_job (worker_id : String) (now : ℚ) (store : List Job) :
    Option Job × List Job :=
  match selectNext now store with
  | none => (none, store)
  | some j =>
      (some (claim_row worker_id now j),
       store.map fun r =>
         if r.id = j.id ∧ (r.state = .pending ∨ r.state = .failed) then
           claim_row worker_id now r
         else r)

/-- Backoff of `calculate_backoff_delay` (lines 208-210): `base ** attempts`
seconds. -/
def calculate_backoff_delay (attempts : Nat) (base : ℚ) : ℚ :=
  base ^ attempts

/-- Python string slicing `s[:n]`: the first `n` characters (code points) of
`s`.  This is the truncation `output[:10000]` of the success commit. -/
def pySlice (s : String) (n : Nat) : String :=
  ⟨s.data.take n⟩

/-- An ASCII single quote, used to build the source's error messages. -/
def squote : String :=
  ⟨[Char.ofNat 39]⟩

/-- The result commit of the worker loop `process_job` (lines 291-341): one
transaction that, depending on the execution's outcome, updates the claimed
job's row by id.  `jobRec` is the row dict returned by `pick_next_job`; the
failure branches use its `attempts` field (the Python variable
`new_attempts = attempts + 1`), while the success branch uses the SQL
expression `attempts = attempts + 1` over the stored row. -/
def process_job_commit (jobRec : Job) (success : Bool) (output : String)
    (error : Option String) (backoff_base : ℚ) (now : ℚ) (store : List Job) :
    List Job :=
  if success then
    store.map fun r =>
      if r.id = jobRec.id then
        { r with state := .completed, attempts := r.attempts + 1,
                 updated_at := now, output := some (pySlice output 10000),
                 last_error := none, picked_by := none }
      else r
  else
    let new_attempts := jobRec.attempts + 1
    if jobRec.max_retries < new_attempts then
      store.map fun r =>
        if r.id = jobRec.id then
          { r with state := .dead, attempts := new_attempts,
                   updated_at := now, last_error := error, picked_by := none }
        else r
    else
      let due := now + calculate_backoff_delay new_attempts backoff_base
      store.map fun r =>
        if r.id = jobRec.id then
          { r with state := .failed, attempts := new_attempts,
                   updated_at := now, due_at := due, last_error := error,
                   picked_by := none }
        else r

/-- Outcome of the subprocess run inside `execute_job` (lines 248-266): a
normal exit with a return code and captured streams, a timeout, or an
exception raised by the launcher. -/
inductive ExecEvent
  | exited (returncode : Int) (stdout stderr : String)
  | timedOut
  | raised (msg : String)

/-- Embedding of `execute_job` (lines 248-266): returns
`(success, output, error)` where `output` is the combined
`stdout + stderr` on a normal exit and the empty string on timeout or
exception. -/
def execute_job (timeout : Nat) (ev : ExecEvent) : Bool × String × Option String :=
  match ev with
  | .exited rc out err =>
      (decide (rc = 0), out ++ err,
       if rc = 0 then none
       else some ("Command failed with exit code " ++ toString rc))
  | .timedOut =>
      (false, "", some ("Job timed out after " ++ toString timeout ++ " seconds"))
  | .raised msg => (false, "", some msg)

/-- Embedding of `enqueue_job` (lines 125-172) after JSON parsing: insert a
fresh `pending` row, or fail on a duplicate id (the `PRIMARY KEY`
violation).  `created` is `now_iso()` at submission; `now_ts` the unix
seconds used for a generated id; `run_at` the optional explicit due time. -/
def enqueue_job (id? : Option String) (command : String)
    (max_retries? : Option Nat) (priority : Int) (run_at : Option ℚ)
    (cfg_max_retries : Nat) (now_ts : Int) (created : ℚ) (store : List Job) :
    Except String (List Job) :=
  let job_id := id?.getD ("job-" ++ toString now_ts)
  let row : Job :=
    { id := job_id, command := command, state := .pending, attempts := 0,
      max_retries := max_retries?.getD cfg_max_retries,
      created_at := created, updated_at := created,
      due_at := run_at.getD created, last_error := none, output := none,
      priority := priority, picked_by := none }
  if store.any fun r => decide (r.id = job_id) then
    .error ("Job with id " ++ squote ++ job_id ++ squote ++ " already exists.")
  else
    .ok (store ++ [row])

/-- Error message of `dlq_retry` when no dead row matches the id. -/
def dlqNotFoundMsg (job_id : String) : String :=
  "Job " ++ squote ++ job_id ++ squote ++ " not found in DLQ"

/-- Embedding of `dlq_retry` (lines 577-599): conditional `UPDATE` on
`id = ? AND state = 'dead'`; when no row matches, the command exits with an
error and the store is untouched.  The source evaluates `now_iso()` twice
for `due_at` and `updated_at` inside one transaction; both readings are the
embedding's single `now`. -/
def dlq_retry (job_id : String) (now : ℚ) (store : List Job) :
    Except String (List Job) :=
  if store.any fun r => decide (r.id = job_id ∧ r.state = .dead) then
    .ok (store.map fun r =>
      if r.id = job_id ∧ r.state = .dead then
        { r with state := .pending, attempts := 0, due_at := now,
                 updated_at := now, last_error := none, picked_by := none }
      else r)
  else
    .error (dlqNotFoundMsg job_id)

/-- One store operation of the core engine, with every wall-clock reading
and execution outcome as explicit data. -/
inductive Op
  | enq (id? : Option String) (command : String) (max_retries? : Option Nat)
        (priority : Int) (run_at : Option ℚ) (cfg_max_retries : Nat)
        (now_ts : Int) (created : ℚ)
  | claim (worker_id : String) (now : ℚ)
  | commit (jobRec : Job) (success : Bool) (output : String)
           (error : Option String) (backoff_base : ℚ) (now : ℚ)
  | retryDLQ (job_id : String) (now : ℚ)

/-- Apply one operation to the store; a failed enqueue or DLQ retry (the
command exits with an error) leaves the store as it was. -/
def applyOp (store : List Job) : Op → List Job
  | .enq id? command mr? priority run_at cfg now_ts created =>
      match enqueue_job id? command mr? priority run_at cfg now_ts created store with
      | .ok s' => s'
      | .error _ => store
  | .claim worker_id now => (pick_next_job worker_id now store).2
  | .commit jobRec success output error base now =>
      process_job_commit jobRec success output error base now store
  | .retryDLQ job_id now =>
      match dlq_retry job_id now store with
      | .ok s' => s'
      | .error _ => store

/-- Run a sequence of operations left to right. -/
def runOps (store : List Job) (ops : List Op) : List Job :=
  ops.foldl applyOp store

/-- Invariant I1 (second half): a row is `processing` exactly when
`picked_by` is non-null. -/
def processing_iff_picked (store : List Job) : Prop :=
  ∀ j ∈ store, (j.state = .processing ↔ j.picked_by ≠ none)

/-- One failing claim-execute-commit cycle at wall-clock time `t`: claim a
job and commit a failed execution for it (`success = false`, captured
output empty). -/
def fail_exec (worker_id : String) (error : Option String) (base : ℚ)
    (t : ℚ) (store : List Job) : List Job :=
  match pick_next_job worker_id t store with
  | (none, s) => s
  | (some j, s) => process_job_commit j false "" error base t s

/-- `n` failing cycles, the `k`-th at time `ts k`. -/
def fail_run (worker_id : String) (error : Option String) (base : ℚ)
    (ts : Nat → ℚ) (store : List Job) : Nat → List Job
  | 0 => store
  | k + 1 => fail_exec worker_id error base (ts (k + 1))
      (fail_run worker_id error base ts store k)

/-- Row-wise effect of the success commit: the claimed job's row becomes
`completed` with `attempts` incremented, the captured output truncated to
10000 characters stored, `last_error` and `picked_by` cleared,
`updated_at = now`, and every other field (and every other row)
unchanged. -/
def successRow (jobRec : Job) (output : String) (now : ℚ) (r r' : Job) : Prop :=
  if r.id = jobRec.id then
    r'.state = .completed ∧ r'.attempts = r.attempts + 1 ∧
    r'.output = some (pySlice output 10000) ∧ r'.last_error = none ∧
    r'.picked_by = none ∧ r'.updated_at = now ∧ r'.id = r.id ∧
    r'.command = r.command ∧ r'.created_at = r.created_at ∧
    r'.due_at = r.due_at ∧ r'.priority = r.priority ∧
    r'.max_retries = r.max_retries
  else r' = r

/-- Row-wise effect of the failure commit when the retry budget is
exhausted: the row becomes `dead` with `attempts = a + 1`, the failure
reason recorded, `picked_by` cleared, `updated_at = now`, and `due_at` and
every other field (and every other row) unchanged. -/
def deadRow (jobRec : Job) (error : Option String) (now : ℚ) (r r' : Job) : Prop :=
  if r.id = jobRec.id then
    r'.state = .dead ∧ r'.attempts = jobRec.attempts + 1 ∧
    r'.last_error = error ∧ r'.picked_by = none ∧ r'.updated_at = now ∧
    r'.due_at = r.due_at ∧ r'.id = r.id ∧ r'.command = r.command ∧
    r'.created_at = r.created_at ∧ r'.priority = r.priority ∧
    r'.max_retries = r.max_retries ∧ r'.output = r.output
  else r' = r

/-- Row-wise effect of the failure commit inside the retry budget: the row
becomes `failed` with `attempts = a + 1`, `due_at = now + base ^ (a + 1)`,
the failure reason recorded, `picked_by` cleared, `updated_at = now`, and
every other field (and every other row) unchanged. -/
def retryRow (jobRec : Job) (error : Option String) (base now : ℚ) (r r' : Job) : Prop :=
  if r.id = jobRec.id then
    r'.state = .failed ∧ r'.attempts = jobRec.attempts + 1 ∧
    r'.due_at = now + calculate_backoff_delay (jobRec.attempts + 1) base ∧
    r'.last_error = error ∧ r'.picked_by = none ∧ r'.updated_at = now ∧
    r'.id = r.id ∧ r'.command = r.command ∧ r'.created_at = r.created_at ∧
    r'.priority = r.priority ∧ r'.max_retries = r.max_retries ∧
    r'.output = r.output
  else r' = r

/-- Row-wise effect of a successful `dlq retry`: the matching dead row is
re-admitted as `pending` with `attempts = 0`, errors and claim cleared and
`due_at = updated_at = now`; every other row is unchanged. -/
def dlqRetryRow (job_id : String) (now : ℚ) (r r' : Job) : Prop :=
  if r.id = job_id ∧ r.state = .dead then
    r'.state = .pending ∧ r'.attempts = 0 ∧ r'.last_error = none ∧
    r'.picked_by = none ∧ r'.due_at = now ∧ r'.updated_at = now
  else r' = r

/-- Fields never touched by `dlq_retry`: the identity, the command, the
creation time, the priority, the retry ceiling, and the last recorded
output all survive re-admission. -/
def dlqFrameRow (r r' : Job) : Prop :=
  r'.id = r.id ∧ r'.command = r.command ∧ r'.created_at = r.created_at ∧
  r'.priority = r.priority ∧ r'.max_retries = r.max_retries ∧
  r'.output = r.output

/-- A fresh job with one allowed retry, used to instantiate the retry-count
theorem concretely. -/
def jseed : Job :=
  { id := "j1", command := "exit 1", state := .pending, attempts := 0,
    max_retries := 1, created_at := 0, updated_at := 0, due_at := 0,
    last_error := none, output := none, priority := 0, picked_by := none }

/-- A dead job, used to instantiate the DLQ-retry theorems concretely. -/
def jdeadW : Job :=
  { id := "j9", command := "exit 1", state := .dead, attempts := 2,
    max_retries := 1, created_at := 0, updated_at := 3, due_at := 1,
    last_error := some "boom", output := some "partial log", priority := 0,
    picked_by := none }

/-- A claimed job with no recorded output, whose failing execution lets the
output-capture claim be evaluated concretely. -/
def jnoOut : Job :=
  { id := "j2", command := "exit 1", state := .processing, attempts := 0,
    max_retries := 3, created_at := 0, updated_at := 1, due_at := 0,
    last_error := none, output := none, priority := 0,
    picked_by := some "w1" }

/-- UTF-8 byte length of a string, summing each character's encoding
size. -/
def utf8Length (s : String) : Nat :=
  (s.data.map Char.utf8Size).sum

/-- Python `str.startswith`. -/
def pyStartsWith (s pre : String) : Bool :=
  pre.data.isPrefixOf s.data

/-- Worker for `pyReplace`: scans left to right replacing each
non-overlapping occurrence of `pat`; the fuel (the subject's length) bounds
the recursion, and each step consumes at least one character. -/
def pyReplaceAux (pat sub : List Char) : Nat → List Char → List Char
  | 0, s => s
  | _ + 1, [] => []
  | fuel + 1, c :: rest =>
      if pat ≠ [] ∧ pat.isPrefixOf (c :: rest) then
        sub ++ pyReplaceAux pat sub fuel ((c :: rest).drop pat.length)
      else
        c :: pyReplaceAux pat sub fuel rest

/-- Python `str.replace(pat, sub)`: every occurrence of `pat`, left to
right, non-overlapping. -/
def pyReplace (s pat sub : String) : String :=
  ⟨pyReplaceAux pat.data sub.data s.data.length s.data⟩

/-- The sqlite URL scheme stripped by `_connect`. -/
def sqliteScheme : String :=
  "sqlite:///"

/-- Embedding of the store-path resolution of `_connect` (lines 32-42)
together with the module-level environment reads (lines 21-22):
`QUEUECTL_DB` defaults to `queuectl.db` and `DATABASE_URL` to
`sqlite:///queuectl.db` when the respective variable is unset. -/
def resolveDbPath (queuectl_db_env database_url_env : Option String) : String :=
  let databaseUrl := database_url_env.getD "sqlite:///queuectl.db"
  let queuectlDb := queuectl_db_env.getD "queuectl.db"
  let db_path := queuectlDb
  if pyStartsWith db_path sqliteScheme then
    pyReplace db_path sqliteScheme ""
  else if pyStartsWith databaseUrl sqliteScheme then
    pyReplace databaseUrl sqliteScheme ""
  else
    db_path

/-- A broken-down timezone-aware UTC datetime, as Python's `datetime`
carries it (the reading of `dt.datetime.now(dt.timezone.utc)`). -/
structure PyDateTime where
  year : Nat
  month : Nat
  day : Nat
  hour : Nat
  minute : Nat
  second : Nat
  microsecond : Nat
deriving DecidableEq

/-- Zero-padded decimal rendering, Python's `%0Nd` formatting. -/
def padNum (width n : Nat) : String :=
  let s := toString n
  ⟨List.replicate (width - s.length) (Char.ofNat 48) ++ s.data⟩

/-- Python `datetime.isoformat(sep)` for a UTC-aware datetime: the
microseconds print as six digits when non-zero and are omitted when zero,
and the UTC offset prints as `+00:00`. -/
def pyIsoformat (sep : Char) (d : PyDateTime) : String :=
  padNum 4 d.year ++ "-" ++ padNum 2 d.month ++ "-" ++ padNum 2 d.day ++
  String.mk [sep] ++ padNum 2 d.hour ++ ":" ++ padNum 2 d.minute ++ ":" ++
  padNum 2 d.second ++
  (if d.microsecond = 0 then "" else "." ++ padNum 6 d.microsecond) ++
  "+00:00"

/-- Embedding of `now_iso` (lines 96-103):
`datetime.now(utc).replace(microsecond=0).isoformat()` with the `+00:00`
offset replaced by `Z`. -/
def now_iso (d : PyDateTime) : String :=
  pyReplace (pyIsoformat (Char.ofNat 84) { d with microsecond := 0 }) "+00:00" "Z"

/-- The `due_at` string written by the failed-retry commit (line 326):
`(now + timedelta(seconds=delay)).isoformat().replace(...)` where `now` is
the full-precision datetime bound at line 325, so `due` keeps its
microseconds. -/
def retry_due_at_string (due : PyDateTime) : String :=
  pyReplace (pyIsoformat (Char.ofNat 84) due) "+00:00" "Z"

/-- The `updated_at` value written by the failed-retry commit (line 339):
the datetime object `now` of line 325 reaches sqlite3 directly, and the
default sqlite3 datetime adapter stores `val.isoformat(" ")`. -/
def retry_updated_at_stored (nowDt : PyDateTime) : String :=
  pyIsoformat (Char.ofNat 32) nowDt

/-- Canonical second-precision UTC timestamp shape
`YYYY-MM-DDTHH:MM:SSZ`: twenty characters, dashes, colons, a `T`
separator, a trailing `Z`, digits everywhere else. -/
def isCanonicalTimestampFormat (s : String) : Bool :=
  s.data.length == 20 &&
  (List.range 20).all fun i =>
    let c := s.data.getD i (Char.ofNat 32)
    if i == 4 || i == 7 then c == Char.ofNat 45
    else if i == 10 then c == Char.ofNat 84
    else if i == 13 || i == 16 then c == Char.ofNat 58
    else if i == 19 then c == Char.ofNat 90
    else c.isDigit

end QueueCtl

namespace QueueCtl

theorem forall₂_map_of_forall {α : Type} (l : List α) (f : α → α)
    (P : α → α → Prop) (h : ∀ a ∈ l, P a (f a)) :
    List.Forall₂ P l (l.map f) := by
  rw [List.forall₂_map_right_iff]
  exact List.forall₂_same.2 h

theorem selectNext_mem_eligible {now : ℚ} {store : List Job} {j : Job}
    (h : selectNext now store = some j) : j ∈ store ∧ eligible now j := by
  have hj : j ∈ (store.filter fun k => decide (eligible now k)).argmin orderKey := by
    rw [selectNext] at h; exact h
  have := List.argmin_mem hj
  rw [List.mem_filter] at this
  exact ⟨this.1, of_decide_eq_true this.2⟩

theorem selectNext_min {now : ℚ} {store : List Job} {j : Job}
    (h : selectNext now store = some j) :
    ∀ k ∈ store, eligible now k → ¬ orderKey k < orderKey j := by
  intro k hk hke
  have hj : j ∈ (store.filter fun m => decide (eligible now m)).argmin orderKey := by
    rw [selectNext] at h; exact h
  have hkf : k ∈ store.filter fun m => decide (eligible now m) := by
    rw [List.mem_filter]; exact ⟨hk, decide_eq_true hke⟩
  exact List.not_lt_of_mem_argmin hkf hj

/-- The claim (C1): `pick_next_job` either claims the minimal eligible job
or leaves the store untouched, and a claimed job was due
(`due_at ≤ now`). -/
theorem pick_next_job_claims_minimal_eligible (worker_id : String) (now : ℚ)
    (store : List Job) :
    ((pick_next_job worker_id now store).1 = none →
       (pick_next_job worker_id now store).2 = store) ∧
    (∀ j', (pick_next_job worker_id now store).1 = some j' →
       ∃ j, j ∈ store ∧ eligible now j ∧
         (∀ k ∈ store, eligible now k → ¬ orderKey k < orderKey j) ∧
         j' = claim_row worker_id now j ∧
         j'.state = .processing ∧ j'.picked_by = some worker_id ∧
         j'.updated_at = now ∧ j'.due_at ≤ now ∧
         List.Forall₂ (fun r r' =>
             if r.id = j.id ∧ (r.state = .pending ∨ r.state = .failed) then
               r' = claim_row worker_id now r
             else r' = r)
           store (pick_next_job worker_id now store).2) := by
  constructor
  · intro hnone
    unfold pick_next_job at hnone ⊢
    cases hsel : selectNext now store with
    | none => simp [hsel]
    | some j => rw [hsel] at hnone; simp at hnone
  · intro j' hsome
    unfold pick_next_job at hsome
    cases hsel : selectNext now store with
    | none => rw [hsel] at hsome; simp at hsome
    | some j =>
        rw [hsel] at hsome
        simp only [Option.some.injEq] at hsome
        obtain ⟨hmem, helig⟩ := selectNext_mem_eligible hsel
        refine ⟨j, hmem, helig, selectNext_min hsel, hsome.symm, ?_, ?_, ?_, ?_, ?_⟩
        · rw [← hsome]; rfl
        · rw [← hsome]; rfl
        · rw [← hsome]; rfl
        · rw [← hsome]; exact helig.2
        · unfold pick_next_job
          rw [hsel]
          simp only
          refine forall₂_map_of_forall _ _ _ ?_
          intro r _
          by_cases hc : r.id = j.id ∧ (r.state = .pending ∨ r.state = .failed)
          · rw [if_pos hc, if_pos hc]
          · rw [if_neg hc, if_neg hc]

/-- The claim (C5): a successful execution's commit completes the claimed
job: state `completed`, `attempts` incremented, output stored truncated,
`last_error` and `picked_by` cleared, `updated_at = now`, and no other
field of any job changes. -/
theorem success_commit_completes (jobRec : Job) (output : String)
    (error : Option String) (backoff_base now : ℚ) (store : List Job) :
    List.Forall₂ (successRow jobRec output now) store
      (process_job_commit jobRec true output error backoff_base now store) := by
  unfold process_job_commit
  rw [if_pos rfl]
  refine forall₂_map_of_forall _ _ _ ?_
  intro r _
  unfold successRow
  by_cases hc : r.id = jobRec.id
  · rw [if_pos hc, if_pos hc]
    exact ⟨rfl, rfl, rfl, rfl, rfl, rfl, rfl, rfl, rfl, rfl, rfl, rfl⟩
  · rw [if_neg hc, if_neg hc]

/-- The claim (C4): a failing execution's commit inside the retry budget
(`a + 1 ≤ max_retries`) reschedules the job as `failed` with
`due_at = now + base ^ (a + 1)` — the post-increment attempt count, no
jitter — and with `base ≥ 1` the delay is at least `base ^ 1`. -/
theorem retry_commit_backoff (jobRec : Job) (output : String)
    (error : Option String) (base now : ℚ) (store : List Job)
    (h : jobRec.attempts + 1 ≤ jobRec.max_retries) :
    List.Forall₂ (retryRow jobRec error base now) store
      (process_job_commit jobRec false output error base now store) ∧
    (1 ≤ base →
      calculate_backoff_delay 1 base ≤
        calculate_backoff_delay (jobRec.attempts + 1) base) ∧
    calculate_backoff_delay (jobRec.attempts + 1) base =
      base ^ (jobRec.attempts + 1) := by
  refine ⟨?_, ?_, rfl⟩
  · unfold process_job_commit
    rw [if_neg Bool.false_ne_true, if_neg (not_lt.2 h)]
    refine forall₂_map_of_forall _ _ _ ?_
    intro r _
    unfold retryRow
    by_cases hc : r.id = jobRec.id
    · rw [if_pos hc, if_pos hc]
      exact ⟨rfl, rfl, rfl, rfl, rfl, rfl, rfl, rfl, rfl, rfl, rfl, rfl⟩
    · rw [if_neg hc, if_neg hc]
  · intro hbase
    exact pow_le_pow_right₀ hbase (by omega)

theorem retry_commit_backoff_witness :
    List.Forall₂
      (retryRow
        { id := "j1", command := "exit 1", state := .processing, attempts := 0,
          max_retries := 3, created_at := 0, updated_at := 10, due_at := 0,
          last_error := none, output := none, priority := 0,
          picked_by := some "w1" } (some "Command failed with exit code 1") 2 10)
      [{ id := "j1", command := "exit 1", state := .processing, attempts := 0,
         max_retries := 3, created_at := 0, updated_at := 10, due_at := 0,
         last_error := none, output := none, priority := 0,
         picked_by := some "w1" }]
      (process_job_commit
        { id := "j1", command := "exit 1", state := .processing, attempts := 0,
          max_retries := 3, created_at := 0, updated_at := 10, due_at := 0,
          last_error := none, output := none, priority := 0,
          picked_by := some "w1" } false ""
        (some "Command failed with exit code 1") 2 10
        [{ id := "j1", command := "exit 1", state := .processing, attempts := 0,
           max_retries := 3, created_at := 0, updated_at := 10, due_at := 0,
           last_error := none, output := none, priority := 0,
           picked_by := some "w1" }]) ∧
    (1 ≤ (2 : ℚ) → calculate_backoff_delay 1 2 ≤ calculate_backoff_delay 1 2) ∧
    calculate_backoff_delay (0 + 1) 2 = (2 : ℚ) ^ (0 + 1) :=
  retry_commit_backoff _ "" _ 2 10 _ (by decide)

theorem fail_exec_singleton (worker_id : String) (error : Option String)
    (base t : ℚ) (j : Job)
    (hstate : j.state = .pending ∨ j.state = .failed) (hdue : j.due_at ≤ t) :
    fail_exec worker_id error base t [j] =
      if j.max_retries < j.attempts + 1 then
        [{ j with state := .dead, attempts := j.attempts + 1,
                  updated_at := t, last_error := error, picked_by := none }]
      else
        [{ j with state := .failed, attempts := j.attempts + 1,
                  updated_at := t,
                  due_at := t + calculate_backoff_delay (j.attempts + 1) base,
                  last_error := error, picked_by := none }] := by
  have helig : eligible t j := ⟨hstate, hdue⟩
  have hfil : List.filter (fun k => decide (eligible t k)) [j] = [j] := by
    simp [helig]
  have hsel : selectNext t [j] = some j := by
    unfold selectNext
    rw [hfil]
    simp
  have hpick : pick_next_job worker_id t [j] =
      (some (claim_row worker_id t j), [claim_row worker_id t j]) := by
    unfold pick_next_job
    rw [hsel]
    simp only [List.map_cons, List.map_nil]
    rw [if_pos (show True ∧ (j.state = .pending ∨ j.state = .failed) from
      ⟨trivial, hstate⟩)]
  unfold fail_exec
  rw [hpick]
  dsimp only [claim_row]
  unfold process_job_commit
  rw [if_neg Bool.false_ne_true]
  dsimp only
  by_cases hM : j.max_retries < j.attempts + 1
  · rw [if_pos hM]
    dsimp only [List.map]
    rw [if_pos rfl, if_pos hM]
  · rw [if_neg hM]
    dsimp only [List.map]
    rw [if_pos rfl, if_neg hM]

theorem fail_run_invariant (worker_id : String) (error : Option String)
    (base : ℚ) (ts : Nat → ℚ) (j0 : Job) (M : Nat)
    (hstate : j0.state = .pending) (hatt : j0.attempts = 0)
    (hM : j0.max_retries = M) (hdue : j0.due_at ≤ ts 1)
    (hts : ∀ i, 1 ≤ i → i ≤ M →
      ts i + calculate_backoff_delay i base ≤ ts (i + 1)) :
    ∀ k, k ≤ M →
      ∃ jk, fail_run worker_id error base ts [j0] k = [jk] ∧
        jk.attempts = k ∧ jk.max_retries = M ∧
        (jk.state = .pending ∨ jk.state = .failed) ∧
        jk.due_at ≤ ts (k + 1) := by
  intro k
  induction k with
  | zero =>
      intro _
      exact ⟨j0, rfl, hatt, hM, Or.inl hstate, hdue⟩
  | succ n ih =>
      intro hn
      obtain ⟨jn, hrun, hatt', hM', hstate', hdue'⟩ := ih (Nat.le_of_succ_le hn)
      have hstep := fail_exec_singleton worker_id error base (ts (n + 1)) jn
        hstate' hdue'
      have hlt : ¬ jn.max_retries < jn.attempts + 1 := by
        rw [hatt', hM']; omega
      rw [if_neg hlt] at hstep
      refine ⟨{ jn with state := .failed, attempts := jn.attempts + 1, updated_at := ts (n + 1), due_at := ts (n + 1) + calculate_backoff_delay (jn.attempts + 1) base, last_error := error, picked_by := none }, ?_, ?_, ?_, ?_, ?_⟩
      · simp only [fail_run]
        rw [hrun, hstep]
      · simp [hatt']
      · exact hM'
      · exact Or.inr rfl
      · show ts (n + 1) + calculate_backoff_delay (jn.attempts + 1) base ≤
          ts (n + 1 + 1)
        rw [hatt']
        exact hts (n + 1) (by omega) hn

theorem fail_run_dead (worker_id : String) (error : Option String)
    (base : ℚ) (ts : Nat → ℚ) (j0 : Job) (M : Nat)
    (hstate : j0.state = .pending) (hatt : j0.attempts = 0)
    (hM : j0.max_retries = M) (hdue : j0.due_at ≤ ts 1)
    (hts : ∀ i, 1 ≤ i → i ≤ M →
      ts i + calculate_backoff_delay i base ≤ ts (i + 1)) :
    ∃ jd, fail_run worker_id error base ts [j0] (M + 1) = [jd] ∧
      jd.state = .dead ∧ jd.attempts = M + 1 := by
  obtain ⟨jM, hrun, hatt', hM', hstate', hdue'⟩ :=
    fail_run_invariant worker_id error base ts j0 M hstate hatt hM hdue hts M
      le_rfl
  have hstep := fail_exec_singleton worker_id error base (ts (M + 1)) jM
    hstate' hdue'
  have hlt : jM.max_retries < jM.attempts + 1 := by rw [hatt', hM']; omega
  rw [if_pos hlt] at hstep
  refine ⟨{ jM with state := .dead, attempts := jM.attempts + 1, updated_at := ts (M + 1), last_error := error, picked_by := none }, ?_, rfl, ?_⟩
  · simp only [fail_run]
    rw [hrun, hstep]
  · simp [hatt']

/-- The claim (C3): a failing execution's commit past the retry budget
(`a + 1 > max_retries`) moves the job to `dead` with `attempts = a + 1`,
the failure reason recorded, `picked_by` cleared and `due_at` unchanged;
and a job that fails on every execution with `max_retries = M` is not dead
through its first `M` executions and is dead with `attempts = M + 1` after
execution `M + 1`. -/
theorem dead_commit_and_retry_count :
    (∀ (jobRec : Job) (output : String) (error : Option String)
        (base now : ℚ) (store : List Job),
       jobRec.max_retries < jobRec.attempts + 1 →
       List.Forall₂ (deadRow jobRec error now) store
         (process_job_commit jobRec false output error base now store)) ∧
    (∀ (worker_id : String) (error : Option String) (base : ℚ)
        (ts : Nat → ℚ) (j0 : Job) (M : Nat),
       j0.state = .pending → j0.attempts = 0 → j0.max_retries = M →
       j0.due_at ≤ ts 1 →
       (∀ i, 1 ≤ i → i ≤ M →
         ts i + calculate_backoff_delay i base ≤ ts (i + 1)) →
       (∀ k, k ≤ M →
          ∃ jk, fail_run worker_id error base ts [j0] k = [jk] ∧
            jk.attempts = k ∧ jk.state ≠ .dead) ∧
       (∃ jd, fail_run worker_id error base ts [j0] (M + 1) = [jd] ∧
          jd.state = .dead ∧ jd.attempts = M + 1)) := by
  constructor
  · intro jobRec output error base now store h
    unfold process_job_commit
    rw [if_neg Bool.false_ne_true]
    dsimp only
    rw [if_pos h]
    refine forall₂_map_of_forall _ _ _ ?_
    intro r _
    unfold deadRow
    by_cases hc : r.id = jobRec.id
    · rw [if_pos hc, if_pos hc]
      exact ⟨rfl, rfl, rfl, rfl, rfl, rfl, rfl, rfl, rfl, rfl, rfl, rfl⟩
    · rw [if_neg hc, if_neg hc]
  · intro worker_id error base ts j0 M hstate hatt hM hdue hts
    constructor
    · intro k hk
      obtain ⟨jk, hrun, hatt', _, hstate', _⟩ :=
        fail_run_invariant worker_id error base ts j0 M hstate hatt hM hdue
          hts k hk
      refine ⟨jk, hrun, hatt', ?_⟩
      intro hd
      cases hstate' with
      | inl hp => rw [hd] at hp; exact JobState.noConfusion hp
      | inr hf => rw [hd] at hf; exact JobState.noConfusion hf
    · exact fail_run_dead worker_id error base ts j0 M hstate hatt hM hdue hts

theorem dead_commit_and_retry_count_witness :
    ((∀ k, k ≤ 1 →
        ∃ jk, fail_run "w1" (some "boom") 2 (fun i => 10 * (i : ℚ)) [jseed] k
            = [jk] ∧ jk.attempts = k ∧ jk.state ≠ .dead) ∧
     (∃ jd, fail_run "w1" (some "boom") 2 (fun i => 10 * (i : ℚ)) [jseed]
          (1 + 1) = [jd] ∧ jd.state = .dead ∧ jd.attempts = 1 + 1)) :=
  dead_commit_and_retry_count.2 "w1" (some "boom") 2 (fun i => 10 * (i : ℚ))
    jseed 1 rfl rfl rfl (by norm_num [jseed])
    (by
      intro i h1 h2
      have hi : i = 1 := le_antisymm h2 h1
      subst hi
      norm_num [calculate_backoff_delay])

theorem processing_iff_picked_map (store : List Job) (f : Job → Job)
    (hf : ∀ r ∈ store, ((f r).state = .processing ↔ (f r).picked_by ≠ none)) :
    processing_iff_picked (store.map f) := by
  intro j hj
  rw [List.mem_map] at hj
  obtain ⟨r, hr, rfl⟩ := hj
  exact hf r hr

theorem applyOp_preserves (store : List Job) (op : Op)
    (h : processing_iff_picked store) :
    processing_iff_picked (applyOp store op) := by
  cases op with
  | enq id? command mr? priority run_at cfg now_ts created =>
      dsimp only [applyOp]
      cases henq : enqueue_job id? command mr? priority run_at cfg now_ts
          created store with
      | error e => exact h
      | ok s' =>
          show processing_iff_picked s'
          unfold enqueue_job at henq
          dsimp only at henq
          split at henq
          · exact Except.noConfusion henq
          · rw [Except.ok.injEq] at henq
            subst henq
            intro j hj
            rcases List.mem_append.1 hj with hj | hj
            · exact h j hj
            · rw [List.mem_singleton] at hj
              subst hj
              simp
  | claim worker_id now =>
      dsimp only [applyOp]
      unfold pick_next_job
      cases hsel : selectNext now store with
      | none => exact h
      | some jsel =>
          dsimp only
          refine processing_iff_picked_map store _ ?_
          intro r hr
          by_cases hc : r.id = jsel.id ∧ (r.state = .pending ∨ r.state = .failed)
          · rw [if_pos hc]
            simp [claim_row]
          · rw [if_neg hc]
            exact h r hr
  | commit jobRec success output error base now =>
      dsimp only [applyOp]
      unfold process_job_commit
      cases success with
      | true =>
          rw [if_pos rfl]
          refine processing_iff_picked_map store _ ?_
          intro r hr
          by_cases hc : r.id = jobRec.id
          · rw [if_pos hc]; simp
          · rw [if_neg hc]; exact h r hr
      | false =>
          rw [if_neg Bool.false_ne_true]
          dsimp only
          by_cases hm : jobRec.max_retries < jobRec.attempts + 1
          · rw [if_pos hm]
            refine processing_iff_picked_map store _ ?_
            intro r hr
            by_cases hc : r.id = jobRec.id
            · rw [if_pos hc]; simp
            · rw [if_neg hc]; exact h r hr
          · rw [if_neg hm]
            refine processing_iff_picked_map store _ ?_
            intro r hr
            by_cases hc : r.id = jobRec.id
            · rw [if_pos hc]; simp
            · rw [if_neg hc]; exact h r hr
  | retryDLQ job_id now =>
      dsimp only [applyOp]
      cases hdlq : dlq_retry job_id now store with
      | error e => exact h
      | ok s' =>
          show processing_iff_picked s'
          unfold dlq_retry at hdlq
          split at hdlq
          · rw [Except.ok.injEq] at hdlq
            subst hdlq
            refine processing_iff_picked_map store _ ?_
            intro r hr
            by_cases hc : r.id = job_id ∧ r.state = .dead
            · rw [if_pos hc]; simp
            · rw [if_neg hc]; exact h r hr
          · exact Except.noConfusion hdlq

/-- The claim (C2): every store satisfying invariant I1's biconditional
(`state = processing ⇔ picked_by ≠ null`) keeps satisfying it under any
sequence of enqueue, claim, result-commit and DLQ-retry operations; in
particular every store reachable from the empty store satisfies it. -/
theorem reachable_stores_processing_iff_picked (store : List Job)
    (ops : List Op) (h : processing_iff_picked store) :
    processing_iff_picked (runOps store ops) := by
  induction ops generalizing store with
  | nil => exact h
  | cons op rest ih => exact ih (applyOp store op) (applyOp_preserves store op h)

theorem reachable_stores_processing_iff_picked_witness :
    processing_iff_picked (runOps []
      [Op.enq (some "j1") "exit 1" none 0 none 3 0 0,
       Op.claim "w1" 1,
       Op.commit { id := "j1", command := "exit 1", state := .processing, attempts := 0, max_retries := 0, created_at := 0, updated_at := 1, due_at := 0, last_error := none, output := none, priority := 0, picked_by := some "w1" } false "" (some "boom") 2 2,
       Op.retryDLQ "j1" 3]) :=
  reachable_stores_processing_iff_picked [] _
    (fun j hj => absurd hj (List.not_mem_nil j))

/-- The claim (C6): `dlq_retry` succeeds exactly when a dead job with the
given id exists; on success that job is reset to `pending` with
`attempts = 0`, `last_error` and `picked_by` cleared and
`due_at = updated_at = now`, other rows untouched; otherwise it fails with
the not-found message and the store is unchanged. -/
theorem dlq_retry_ok_iff_dead (job_id : String) (now : ℚ) (store : List Job) :
    ((∃ r ∈ store, r.id = job_id ∧ r.state = .dead) →
       ∃ store', dlq_retry job_id now store = .ok store' ∧
         List.Forall₂ (dlqRetryRow job_id now) store store') ∧
    ((¬ ∃ r ∈ store, r.id = job_id ∧ r.state = .dead) →
       dlq_retry job_id now store = .error (dlqNotFoundMsg job_id) ∧
       applyOp store (.retryDLQ job_id now) = store) := by
  have hany : (store.any fun r => decide (r.id = job_id ∧ r.state = .dead))
      = true ↔ ∃ r ∈ store, r.id = job_id ∧ r.state = .dead := by
    rw [List.any_eq_true]
    constructor
    · rintro ⟨r, hr, hd⟩
      exact ⟨r, hr, of_decide_eq_true hd⟩
    · rintro ⟨r, hr, hd⟩
      exact ⟨r, hr, decide_eq_true hd⟩
  constructor
  · intro hex
    refine ⟨store.map fun r => if r.id = job_id ∧ r.state = .dead then { r with state := .pending, attempts := 0, due_at := now, updated_at := now, last_error := none, picked_by := none } else r, ?_, ?_⟩
    · unfold dlq_retry
      rw [if_pos (hany.2 hex)]
    · refine forall₂_map_of_forall _ _ _ ?_
      intro r _
      unfold dlqRetryRow
      by_cases hc : r.id = job_id ∧ r.state = .dead
      · rw [if_pos hc, if_pos hc]
        exact ⟨rfl, rfl, rfl, rfl, rfl, rfl⟩
      · rw [if_neg hc, if_neg hc]
  · intro hnex
    have herr : dlq_retry job_id now store = .error (dlqNotFoundMsg job_id) := by
      unfold dlq_retry
      rw [if_neg (fun hh => hnex (hany.1 hh))]
    refine ⟨herr, ?_⟩
    dsimp only [applyOp]
    rw [herr]

theorem dlq_retry_ok_iff_dead_witness :
    ((∃ store', dlq_retry "j9" 7 [jdeadW] = .ok store' ∧
        List.Forall₂ (dlqRetryRow "j9" 7) [jdeadW] store') ∧
     (dlq_retry "nope" 7 [jdeadW] = .error (dlqNotFoundMsg "nope") ∧
      applyOp [jdeadW] (.retryDLQ "nope" 7) = [jdeadW])) :=
  ⟨(dlq_retry_ok_iff_dead "j9" 7 [jdeadW]).1 (by decide),
   (dlq_retry_ok_iff_dead "nope" 7 [jdeadW]).2 (by decide)⟩

/-- The claim (C10): a successful `dlq_retry` never touches the job's
command, creation time, priority, retry ceiling, or recorded output, nor
its id, on any row of the store. -/
theorem dlq_retry_preserves_frame (job_id : String) (now : ℚ)
    (store store' : List Job) (h : dlq_retry job_id now store = .ok store') :
    List.Forall₂ dlqFrameRow store store' := by
  unfold dlq_retry at h
  split at h
  · rw [Except.ok.injEq] at h
    subst h
    refine forall₂_map_of_forall _ _ _ ?_
    intro r _
    unfold dlqFrameRow
    by_cases hc : r.id = job_id ∧ r.state = .dead
    · rw [if_pos hc]
      exact ⟨rfl, rfl, rfl, rfl, rfl, rfl⟩
    · rw [if_neg hc]
      exact ⟨rfl, rfl, rfl, rfl, rfl, rfl⟩
  · exact Except.noConfusion h

theorem dlq_retry_preserves_frame_witness :
    List.Forall₂ dlqFrameRow [jdeadW]
      [{ jdeadW with state := .pending, attempts := 0, due_at := 7, updated_at := 7, last_error := none, picked_by := none }] :=
  dlq_retry_preserves_frame "j9" 7 [jdeadW] _ rfl

/-- Amended claim (C7): only the success commit stores the captured
combined stdout+stderr, truncated to its first 10000 characters (so the
stored string has at most 10000 characters); the failure commits — for
non-zero exit, timeout or executor exception alike — leave every job's
`output` field unchanged. -/
theorem output_stored_on_success_only (jobRec : Job) (output : String)
    (error : Option String) (base now : ℚ) (store : List Job) :
    (List.Forall₂ (fun r r' => r'.output =
         if r.id = jobRec.id then some (pySlice output 10000) else r.output)
       store (process_job_commit jobRec true output error base now store) ∧
     (pySlice output 10000).data.length ≤ 10000) ∧
    List.Forall₂ (fun r r' => r'.output = r.output)
      store (process_job_commit jobRec false output error base now store) := by
  refine ⟨⟨?_, ?_⟩, ?_⟩
  · unfold process_job_commit
    rw [if_pos rfl]
    refine forall₂_map_of_forall _ _ _ ?_
    intro r _
    by_cases hc : r.id = jobRec.id
    · rw [if_pos hc, if_pos hc]
    · rw [if_neg hc, if_neg hc]
  · show ((output.data).take 10000).length ≤ 10000
    rw [List.length_take]
    exact min_le_left _ _
  · unfold process_job_commit
    rw [if_neg Bool.false_ne_true]
    dsimp only
    by_cases hm : jobRec.max_retries < jobRec.attempts + 1
    · rw [if_pos hm]
      refine forall₂_map_of_forall _ _ _ ?_
      intro r _
      by_cases hc : r.id = jobRec.id
      · rw [if_pos hc]
      · rw [if_neg hc]
    · rw [if_neg hm]
      refine forall₂_map_of_forall _ _ _ ?_
      intro r _
      by_cases hc : r.id = jobRec.id
      · rw [if_pos hc]
      · rw [if_neg hc]

/-- Counterexample to the claim (C7) as stated: a failing execution whose
captured output is `"boom"` commits without writing `output` at all (the
field stays `null`), and a success commit of 5001 two-byte characters
stores a string of 10002 UTF-8 bytes, beyond the claimed 10000-byte
bound. -/
theorem failure_commit_drops_output :
    (process_job_commit jnoOut false "boom"
        (some "Command failed with exit code 1") 2 1 [jnoOut]).map Job.output
      = [none] ∧
    some (pySlice "boom" 10000) ≠ (none : Option String) ∧
    10000 <
      utf8Length (pySlice (String.mk (List.replicate 5001 (Char.ofNat 233)))
        10000) := by
  refine ⟨by decide, by decide, ?_⟩
  show 10000 < utf8Length ⟨(List.replicate 5001 (Char.ofNat 233)).take 10000⟩
  rw [List.take_of_length_le (by rw [List.length_replicate]; omega)]
  unfold utf8Length
  rw [List.map_replicate,
    show (Char.ofNat 233).utf8Size = 2 from by decide,
    List.sum_replicate, smul_eq_mul]
  omega

/-- Counterexample to the claim (C9) as stated: with `QUEUECTL_DB` set to a
plain path and `DATABASE_URL` set to a `sqlite:///` URL, the resolved path
follows `DATABASE_URL`, so `QUEUECTL_DB` does not win. -/
theorem queuectl_db_does_not_win :
    resolveDbPath (some "custom.db") (some "sqlite:///other.db")
      = "other.db" ∧ "other.db" ≠ "custom.db" :=
  ⟨by decide, by decide⟩

/-- Amended claim (C9): `QUEUECTL_DB` (default `queuectl.db`) is used, with
the prefix stripped, only when its own value begins with `sqlite:///`;
otherwise `DATABASE_URL` — which defaults to `sqlite:///queuectl.db` even
when the variable is unset — is used stripped whenever it begins with
`sqlite:///`; only when neither value carries the prefix is the raw
`QUEUECTL_DB` value used.  With neither variable set the path is
`queuectl.db`. -/
theorem resolve_db_path_cases :
    resolveDbPath none none = "queuectl.db" ∧
    (∀ p d?, pyStartsWith p sqliteScheme = true →
       resolveDbPath (some p) d? = pyReplace p sqliteScheme "") ∧
    (∀ p u, pyStartsWith p sqliteScheme = false →
       pyStartsWith u sqliteScheme = true →
       resolveDbPath (some p) (some u) = pyReplace u sqliteScheme "") ∧
    (∀ p, pyStartsWith p sqliteScheme = false →
       resolveDbPath (some p) none = "queuectl.db") ∧
    (∀ p u, pyStartsWith p sqliteScheme = false →
       pyStartsWith u sqliteScheme = false →
       resolveDbPath (some p) (some u) = p) := by
  refine ⟨by decide, ?_, ?_, ?_, ?_⟩
  · intro p d? hp
    simp only [resolveDbPath, Option.getD_some]
    rw [if_pos hp]
  · intro p u hp hu
    simp only [resolveDbPath, Option.getD_some]
    rw [if_neg (by simp [hp]), if_pos hu]
  · intro p hp
    simp only [resolveDbPath, Option.getD_some, Option.getD_none]
    rw [if_neg (by simp [hp]), if_pos (by decide)]
    decide
  · intro p u hp hu
    simp only [resolveDbPath, Option.getD_some]
    rw [if_neg (by simp [hp]), if_neg (by simp [hu])]

theorem resolve_db_path_cases_witness :
    resolveDbPath (some "custom.db") none = "queuectl.db" :=
  resolve_db_path_cases.2.2.2.1 "custom.db" (by decide)

/-- The claim (C8) against the code (a code bug): `now_iso` does produce
the canonical `YYYY-MM-DDTHH:MM:SSZ` form, but the failed-retry commit
(lines 321-339) rebinds `now` — set to `now_iso()` at line 289 — to a
full-precision datetime at line 325, so the `due_at` string it writes keeps
microseconds, and the `updated_at` value reaches sqlite3 as a datetime
object that the default adapter stores with a space separator and a
`+00:00` offset; neither is in the canonical form. -/
theorem retry_commit_timestamp_not_canonical :
    now_iso ⟨2025, 1, 1, 12, 0, 5, 500000⟩ = "2025-01-01T12:00:05Z" ∧
    isCanonicalTimestampFormat (now_iso ⟨2025, 1, 1, 12, 0, 5, 500000⟩)
      = true ∧
    retry_due_at_string ⟨2025, 1, 1, 12, 0, 7, 500000⟩ =
      "2025-01-01T12:00:07.500000Z" ∧
    isCanonicalTimestampFormat
      (retry_due_at_string ⟨2025, 1, 1, 12, 0, 7, 500000⟩) = false ∧
    retry_updated_at_stored ⟨2025, 1, 1, 12, 0, 5, 500000⟩ =
      "2025-01-01 12:00:05.500000+00:00" ∧
    isCanonicalTimestampFormat
      (retry_updated_at_stored ⟨2025, 1, 1, 12, 0, 5, 500000⟩) = false := by
  decide

end QueueCtl
